import Mathlib

/-!
# Verification of the Enviador_de_Email dual-backend entity store

Shallow embedding of the repository's DAO layer (`src/dao/*.py`) and of the
cascade controller (`src/controller/recipient_group_controller.py`), together
with theorems settling the frozen claims about the store.

Conventions of the embedding:

* Python dict-shaped records become Lean structures; the field names are the
  dict keys used by the DAO code.
* A DAO's in-memory state (`BaseDao._data`) becomes a structure holding the
  `next_id` counter and the list of records.
* Python `str.lower()`, `str.endswith()` and `str.rstrip('/')` are modelled by
  executable character-list functions (`pyLower`, `pyEndsWith`, `rstripSlash`)
  so that concrete instances evaluate inside the kernel.
* Remote (Supabase) round trips: a successful upsert is modelled as an echoing
  store (the server returns the stored representation of the row it was sent,
  which is the row itself), matching `supabase_client.upsert_rows` with
  `Prefer: return=representation`.  Failing remote calls are modelled by
  explicit outcome parameters / oracles where a claim is about failure
  behaviour.  DAOs that are not remote-only are also exercised in
  local-persistence mode, where `upsert_one` falls back to `_save` and the
  in-memory table is not changed by persistence.
-/

namespace Enviador

/-- Python `str.lower` on one character (ASCII, which is what `.lower()` does
on the ASCII range used by the store's keys). -/
def pyLowerChar (c : Char) : Char :=
  if 'A' ≤ c ∧ c ≤ 'Z' then Char.ofNat (c.toNat + 32) else c

/-- Python `str.lower()`, as an executable map over the character list. -/
def pyLower (s : String) : String := ⟨s.data.map pyLowerChar⟩

/-- Python `str.endswith(suffix)`. -/
def pyEndsWith (s suffix : String) : Bool := suffix.data.isSuffixOf s.data

/-- Python `str.rstrip('/')`. -/
def rstripSlash (s : String) : String := ⟨(s.data.reverse.dropWhile (· == '/')).reverse⟩

/-! ## Membership table (`src/dao/recipient_group_membership_dao.py`)

Rows have the shape `{"recipient_id": int, "group_id": int}`. -/

/-- One membership row: the (recipient-id, group-id) join pair. -/
structure MembershipRow where
  recipient_id : Nat
  group_id : Nat
deriving DecidableEq, Repr

/-- In-memory state of `RecipientGroupMembershipDao` (`BaseDao._data` for
`data_name = "recipient_group_membership"`). -/
structure MembershipTable where
  next_id : Nat
  rows : List MembershipRow
deriving DecidableEq, Repr

/-- `RecipientGroupMembershipDao.list_group_members`. -/
def MembershipTable.list_group_members (t : MembershipTable) (group_id : Nat) : List Nat :=
  (t.rows.filter (fun m => m.group_id == group_id)).map (·.recipient_id)

/-- `RecipientGroupMembershipDao.list_recipient_groups`. -/
def MembershipTable.list_recipient_groups (t : MembershipTable) (recipient_id : Nat) : List Nat :=
  (t.rows.filter (fun m => m.recipient_id == recipient_id)).map (·.group_id)

/-- `RecipientGroupMembershipDao.add_membership`.  Scans for an existing
(recipient, group) pair; if one is found it returns `false` without touching
the table, otherwise it appends the pair and bumps `next_id`.  Persistence
(`upsert_one` falling back to `_save`) does not alter the in-memory rows. -/
def MembershipTable.add_membership (t : MembershipTable) (recipient_id group_id : Nat) :
    MembershipTable × Bool :=
  if t.rows.any (fun m => m.recipient_id == recipient_id && m.group_id == group_id) then
    (t, false)
  else
    ({ next_id := t.next_id + 1, rows := t.rows ++ [⟨recipient_id, group_id⟩] }, true)

/-- `RecipientGroupMembershipDao.remove_membership`: drop every row with the
given pair; report whether the table shrank. -/
def MembershipTable.remove_membership (t : MembershipTable) (recipient_id group_id : Nat) :
    MembershipTable × Bool :=
  let rows' := t.rows.filter
    (fun m => !(m.recipient_id == recipient_id && m.group_id == group_id))
  ({ t with rows := rows' }, decide (rows'.length < t.rows.length))

lemma membership_match_iff (m : MembershipRow) (r g : Nat) :
    (m.recipient_id == r && m.group_id == g) = true ↔ m = ⟨r, g⟩ := by
  cases m with
  | mk mr mg => simp [MembershipRow.mk.injEq]

lemma membership_any_iff (l : List MembershipRow) (r g : Nat) :
    (l.any (fun m => m.recipient_id == r && m.group_id == g)) = true ↔
      (MembershipRow.mk r g) ∈ l := by
  rw [List.any_eq_true]
  constructor
  · rintro ⟨m, hm, hpm⟩
    rcases (membership_match_iff m r g).mp hpm with rfl
    exact hm
  · intro h
    exact ⟨⟨r, g⟩, h, (membership_match_iff ⟨r, g⟩ r g).mpr rfl⟩

/-! ## Recipient table (`src/dao/recipient_dao.py`)

`RecipientDao` is constructed with `remote_only=True`, so its operations are
modelled in remote mode.  A recipient record is the dict produced by
`RecipientModel.__dict__`; the model class itself is not under `src/`, but its
fields and their order are fixed by the DAO and controller code:
`recipient_id`, `address`, `group_id` (legacy single-group back-reference,
nullable). -/

/-- One recipient record. -/
structure RecipientRow where
  recipient_id : Nat
  address : String
  group_id : Option Nat
deriving DecidableEq, Repr

/-- In-memory state of `RecipientDao` (`BaseDao._data` for
`data_name = "recipients"`). -/
structure RecipientTable where
  next_id : Nat
  recipients : List RecipientRow
deriving DecidableEq, Repr

/-- The `max_id` scan of `BaseDao._save` / `BaseDao.upsert_one` over recipient
rows: every column whose key ends in `_id` is a candidate, which for a
recipient dict means `recipient_id` and (when non-null) `group_id`;
`int(address)` raises and is skipped. -/
def recipientsMaxId (rows : List RecipientRow) : Nat :=
  rows.foldl
    (fun mx r =>
      let mx := max mx r.recipient_id
      match r.group_id with
      | some g => max mx g
      | none => mx)
    0

/-- `RecipientDao.find_by_address`: first row whose address matches
case-insensitively. -/
def RecipientTable.find_by_address (t : RecipientTable) (address : String) :
    Option RecipientRow :=
  t.recipients.find? (fun r => pyLower r.address == pyLower address)

/-- `BaseDao.upsert_one` in remote mode with the server echoing the sent row
(`returned = [item]`): the first cached row sharing the guessed primary key
(`recipient_id`, the first `_id`-suffixed key of the dict) is replaced, or the
row is appended; then `next_id` is recomputed from all `_id`-suffixed
columns. -/
def RecipientTable.upsert_one_echo (t : RecipientTable) (row : RecipientRow) :
    RecipientTable :=
  let rows' :=
    match t.recipients.findIdx? (fun r => r.recipient_id == row.recipient_id) with
    | some i => t.recipients.set i row
    | none => t.recipients ++ [row]
  let mx := recipientsMaxId rows'
  { next_id := if mx ≠ 0 then mx + 1 else t.next_id, recipients := rows' }

/-- `BaseDao._save` in remote mode with an echoing server: the row list is
replaced by itself and `next_id` recomputed; with no rows `upsert_rows`
returns `[]` and nothing changes. -/
def RecipientTable.save_echo (t : RecipientTable) : RecipientTable :=
  if t.recipients.isEmpty then t
  else
    let mx := recipientsMaxId t.recipients
    { t with next_id := if mx ≠ 0 then mx + 1 else t.next_id }

/-- `BaseDao._load` in remote mode succeeding with `rows`: the cache is
replaced and `next_id` becomes one plus the largest value of the guessed
primary-key column (`recipient_id`), defaulting to 1. -/
def RecipientTable.load (rows : List RecipientRow) : RecipientTable :=
  let mx := rows.foldl (fun a r => max a r.recipient_id) 0
  { next_id := if mx ≠ 0 then mx + 1 else 1, recipients := rows }

/-- Outcome of the remote single-row upsert attempted by
`RecipientDao.add`. -/
inductive UpsertOutcome where
  /-- The upsert succeeded and the server echoed the row. -/
  | ok : UpsertOutcome
  /-- The upsert failed with HTTP 409 (unique violation) and the subsequent
  `_load` returned these rows. -/
  | conflict : List RecipientRow → UpsertOutcome
  /-- The upsert failed with HTTP 409 but the reload itself raised. -/
  | conflictReloadFailed : UpsertOutcome
  /-- The upsert failed with any other error. -/
  | fail : UpsertOutcome
deriving Repr

/-- `RecipientDao.add`: look up by address; return the existing record
unchanged if found; otherwise allocate `next_id`, append, and attempt the
single-row remote upsert, handling a 409 conflict by reloading and
re-resolving by address, and any other failure by a full `_save`. -/
def RecipientTable.add (t : RecipientTable) (rec : RecipientRow) (out : UpsertOutcome) :
    RecipientTable × RecipientRow :=
  match t.find_by_address rec.address with
  | some existing => (t, existing)
  | none =>
    match out with
    | .ok =>
      ((RecipientTable.mk (t.next_id + 1)
          (t.recipients ++ [{ rec with recipient_id := t.next_id }])).upsert_one_echo
        { rec with recipient_id := t.next_id },
       { rec with recipient_id := t.next_id })
    | .conflict remoteRows =>
      match (RecipientTable.load remoteRows).find_by_address rec.address with
      | some existing2 => (RecipientTable.load remoteRows, existing2)
      | none =>
        ((RecipientTable.load remoteRows).save_echo,
         { rec with recipient_id := t.next_id })
    | .conflictReloadFailed =>
      ((RecipientTable.mk (t.next_id + 1)
          (t.recipients ++ [{ rec with recipient_id := t.next_id }])).save_echo,
       { rec with recipient_id := t.next_id })
    | .fail =>
      ((RecipientTable.mk (t.next_id + 1)
          (t.recipients ++ [{ rec with recipient_id := t.next_id }])).save_echo,
       { rec with recipient_id := t.next_id })

/-- `RecipientDao.delete`: drop every row with the id; report whether the
table shrank. -/
def RecipientTable.delete (t : RecipientTable) (recipient_id : Nat) :
    RecipientTable × Bool :=
  let rows' := t.recipients.filter (fun r => !(r.recipient_id == recipient_id))
  ({ t with recipients := rows' }, decide (rows'.length < t.recipients.length))

/-- `RecipientDao.update`: patch the first row with the given id in place
(`address` and `group_id` only when supplied), or fail with `ValueError`
("Recipient not found") when no row has the id. -/
def recipientUpdateRows (rows : List RecipientRow) (recipient_id : Nat)
    (address : Option String) (group_id : Option Nat) :
    Option (List RecipientRow × RecipientRow) :=
  match rows with
  | [] => none
  | r :: rest =>
    if r.recipient_id = recipient_id then
      let r' : RecipientRow :=
        { r with
          address := address.getD r.address
          group_id := match group_id with
            | some g => some g
            | none => r.group_id }
      some (r' :: rest, r')
    else
      (recipientUpdateRows rest recipient_id address group_id).map
        (fun p => (r :: p.1, p.2))

/-- `RecipientDao.update` at the table level (`Except.error` models the raised
`ValueError`). -/
def RecipientTable.update (t : RecipientTable) (recipient_id : Nat)
    (address : Option String) (group_id : Option Nat) :
    Except Unit (RecipientTable × RecipientRow) :=
  match recipientUpdateRows t.recipients recipient_id address group_id with
  | some (rows', r') => .ok ({ t with recipients := rows' }, r')
  | none => .error ()

/-! ## Sender table (`src/dao/sender_dao.py`)

`SenderDao` permits local fallback; it is modelled in local-persistence mode,
where `upsert_one` falls back to `_save` and persistence does not change the
in-memory table. -/

/-- One sender record (`SenderModel.__dict__`). -/
structure SenderRow where
  sender_id : Nat
  app_password_id : Option Nat
  address : String
deriving DecidableEq, Repr

/-- In-memory state of `SenderDao`. -/
structure SenderTable where
  next_id : Nat
  senders : List SenderRow
deriving DecidableEq, Repr

/-- `SenderDao.find_by_address`. -/
def SenderTable.find_by_address (t : SenderTable) (address : String) :
    Option SenderRow :=
  t.senders.find? (fun s => pyLower s.address == pyLower address)

/-- `SenderDao.add`: return the existing record when the address is already
present (case-insensitively); otherwise allocate `next_id` and append. -/
def SenderTable.add (t : SenderTable) (s : SenderRow) : SenderTable × SenderRow :=
  match t.find_by_address s.address with
  | some existing => (t, existing)
  | none =>
    let row := { s with sender_id := t.next_id }
    ({ next_id := t.next_id + 1, senders := t.senders ++ [row] }, row)

/-- `SenderDao.edit`: replace the first row with the given `sender_id`, or
fail with `ValueError` when no row has it. -/
def senderEditRows (rows : List SenderRow) (s : SenderRow) :
    Option (List SenderRow) :=
  match rows with
  | [] => none
  | r :: rest =>
    if r.sender_id = s.sender_id then some (s :: rest)
    else (senderEditRows rest s).map (r :: ·)

/-- `SenderDao.edit` at the table level. -/
def SenderTable.edit (t : SenderTable) (s : SenderRow) :
    Except Unit (SenderTable × SenderRow) :=
  match senderEditRows t.senders s with
  | some rows' => .ok ({ t with senders := rows' }, s)
  | none => .error ()

/-- `SenderDao.delete`: drop every row with the id; report whether the table
shrank. -/
def SenderTable.delete (t : SenderTable) (sender_id : Nat) : SenderTable × Bool :=
  let rows' := t.senders.filter (fun s => !(s.sender_id == sender_id))
  ({ t with senders := rows' }, decide (rows'.length < t.senders.length))

/-! ## Group table (`src/dao/recipient_group_dao.py`)

A group record is `RecipientGroupModel.__dict__`; the model class is not
under `src/`, but the DAO fixes its fields: `group_id`, `name`, and the
legacy member-id list `recipients`.  `RecipientGroupDao` permits local
fallback; it is modelled in local-persistence mode. -/

/-- One group record. -/
structure GroupRow where
  group_id : Nat
  name : String
  recipients : List Nat
deriving DecidableEq, Repr

/-- In-memory state of `RecipientGroupDao`. -/
structure GroupTable where
  next_id : Nat
  groups : List GroupRow
deriving DecidableEq, Repr

/-- `RecipientGroupDao.find_by_name`: the guard
`g.get("name") and g.get("name").lower() == name.lower()` skips rows whose
stored name is falsy (empty), then compares case-insensitively. -/
def GroupTable.find_by_name (t : GroupTable) (name : String) : Option GroupRow :=
  t.groups.find? (fun g => !(g.name == "") && (pyLower g.name == pyLower name))

/-- `RecipientGroupDao.find_by_id`. -/
def GroupTable.find_by_id (t : GroupTable) (group_id : Nat) : Option GroupRow :=
  t.groups.find? (fun g => g.group_id == group_id)

/-- `RecipientGroupDao.add`: return the existing record when the name is
already present (case-insensitively); otherwise allocate `next_id` and
append. -/
def GroupTable.add (t : GroupTable) (g : GroupRow) : GroupTable × GroupRow :=
  match t.find_by_name g.name with
  | some existing => (t, existing)
  | none =>
    let row := { g with group_id := t.next_id }
    ({ next_id := t.next_id + 1, groups := t.groups ++ [row] }, row)

/-- `RecipientGroupDao.delete`: drop every row with the id; report whether
the table shrank. -/
def GroupTable.delete (t : GroupTable) (group_id : Nat) : GroupTable × Bool :=
  let rows' := t.groups.filter (fun g => !(g.group_id == group_id))
  ({ t with groups := rows' }, decide (rows'.length < t.groups.length))
/-! ## Helper lemmas -/

lemma find?_ext {α} (p q : α → Bool) (l : List α) (h : ∀ a, p a = q a) :
    l.find? p = l.find? q := by
  induction l with
  | nil => rfl
  | cons x xs ih =>
    simp only [List.find?_cons, h x, ih]

lemma find?_append_none {α} (p : α → Bool) {l₁ : List α} (l₂ : List α)
    (h : l₁.find? p = none) : (l₁ ++ l₂).find? p = l₂.find? p := by
  rw [List.find?_append, h, Option.none_or]

lemma find?_eq_none_of_false {α} (p : α → Bool) (l : List α)
    (h : ∀ x ∈ l, p x = false) : l.find? p = none :=
  List.find?_eq_none.mpr (fun x hx => by rw [h x hx]; exact Bool.false_ne_true)

lemma pyLower_empty_iff (s : String) : pyLower s = "" ↔ s = "" := by
  cases s with
  | mk d =>
    constructor
    · intro h
      have hd : d.map pyLowerChar = ([] : List Char) := congrArg String.data h
      have hnil : d = [] := List.map_eq_nil_iff.mp hd
      rw [hnil]
    · intro h
      rw [h]
      rfl

/-! ## C3: idempotent typed-repository `add` -/

lemma sender_add_of_found (t : SenderTable) (s ex : SenderRow)
    (h : t.find_by_address s.address = some ex) : t.add s = (t, ex) := by
  unfold SenderTable.add
  rw [h]

lemma group_add_of_found (t : GroupTable) (g ex : GroupRow)
    (h : t.find_by_name g.name = some ex) : t.add g = (t, ex) := by
  unfold GroupTable.add
  rw [h]

lemma recipient_add_of_found (t : RecipientTable) (rec ex : RecipientRow)
    (out : UpsertOutcome) (h : t.find_by_address rec.address = some ex) :
    t.add rec out = (t, ex) := by
  unfold RecipientTable.add
  rw [h]

lemma sender_add_idem (t : SenderTable) (s₁ s₂ : SenderRow)
    (h : pyLower s₂.address = pyLower (t.add s₁).2.address) :
    ((t.add s₁).1.add s₂).2.sender_id = (t.add s₁).2.sender_id
    ∧ ((t.add s₁).1.add s₂).1.senders.length = (t.add s₁).1.senders.length := by
  cases hfind : t.find_by_address s₁.address with
  | some ex =>
    have hadd : t.add s₁ = (t, ex) := sender_add_of_found t s₁ ex hfind
    rw [hadd] at h ⊢
    have hfind' : t.senders.find?
        (fun r => pyLower r.address == pyLower s₁.address) = some ex := hfind
    have hbeq : (pyLower ex.address == pyLower s₁.address) = true :=
      List.find?_some (p := fun (r : SenderRow) => pyLower r.address == pyLower s₁.address) hfind'
    have hkey : pyLower s₂.address = pyLower s₁.address :=
      h.trans (eq_of_beq hbeq)
    have hfind2 : t.find_by_address s₂.address = some ex := by
      show t.senders.find? (fun r => pyLower r.address == pyLower s₂.address) = some ex
      rw [find?_ext _ (fun r => pyLower r.address == pyLower s₁.address) _
        (fun r => by rw [hkey])]
      exact hfind'
    rw [sender_add_of_found t s₂ ex hfind2]
    exact ⟨rfl, rfl⟩
  | none =>
    have hadd : t.add s₁ =
        ({ next_id := t.next_id + 1,
           senders := t.senders ++ [{ s₁ with sender_id := t.next_id }] },
         { s₁ with sender_id := t.next_id }) := by
      unfold SenderTable.add
      rw [hfind]
    rw [hadd] at h ⊢
    have hkey : pyLower s₂.address = pyLower s₁.address := h
    have hfind' : t.senders.find?
        (fun r => pyLower r.address == pyLower s₁.address) = none := hfind
    have hnone : ∀ x ∈ t.senders,
        (pyLower x.address == pyLower s₂.address) = false := by
      intro x hx
      rw [hkey]
      have := List.find?_eq_none.mp hfind' x hx
      rw [Bool.eq_false_iff]
      exact this
    have hfind2 :
        ({ next_id := t.next_id + 1,
           senders := t.senders ++ [{ s₁ with sender_id := t.next_id }] } :
          SenderTable).find_by_address s₂.address =
        some { s₁ with sender_id := t.next_id } := by
      show (t.senders ++ [{ s₁ with sender_id := t.next_id }]).find?
          (fun r => pyLower r.address == pyLower s₂.address) =
        some { s₁ with sender_id := t.next_id }
      rw [find?_append_none _ _ (find?_eq_none_of_false _ _ hnone)]
      exact List.find?_cons_of_pos _ (by rw [hkey]; exact beq_self_eq_true _)
    rw [sender_add_of_found _ s₂ _ hfind2]
    exact ⟨rfl, rfl⟩

lemma group_add_idem (t : GroupTable) (g₁ g₂ : GroupRow)
    (hne : g₂.name ≠ "")
    (h : pyLower g₂.name = pyLower (t.add g₁).2.name) :
    ((t.add g₁).1.add g₂).2.group_id = (t.add g₁).2.group_id
    ∧ ((t.add g₁).1.add g₂).1.groups.length = (t.add g₁).1.groups.length := by
  cases hfind : t.find_by_name g₁.name with
  | some ex =>
    have hadd : t.add g₁ = (t, ex) := group_add_of_found t g₁ ex hfind
    rw [hadd] at h ⊢
    have hfind' : t.groups.find?
        (fun g => !(g.name == "") && (pyLower g.name == pyLower g₁.name)) = some ex :=
      hfind
    have hex := List.find?_some
      (p := fun (g : GroupRow) => !(g.name == "") && (pyLower g.name == pyLower g₁.name)) hfind'
    simp only [Bool.and_eq_true] at hex
    have hkey : pyLower g₂.name = pyLower g₁.name :=
      h.trans (eq_of_beq hex.2)
    have hfind2 : t.find_by_name g₂.name = some ex := by
      show t.groups.find?
        (fun g => !(g.name == "") && (pyLower g.name == pyLower g₂.name)) = some ex
      rw [find?_ext _
        (fun g => !(g.name == "") && (pyLower g.name == pyLower g₁.name)) _
        (fun g => by rw [hkey])]
      exact hfind'
    rw [group_add_of_found t g₂ ex hfind2]
    exact ⟨rfl, rfl⟩
  | none =>
    have hadd : t.add g₁ =
        ({ next_id := t.next_id + 1,
           groups := t.groups ++ [{ g₁ with group_id := t.next_id }] },
         { g₁ with group_id := t.next_id }) := by
      unfold GroupTable.add
      rw [hfind]
    rw [hadd] at h ⊢
    have hkey : pyLower g₂.name = pyLower g₁.name := h
    have hg₁ : (g₁.name == "") = false := by
      rw [Bool.eq_false_iff]
      intro hc
      apply hne
      apply (pyLower_empty_iff g₂.name).mp
      rw [hkey, eq_of_beq hc]
      rfl
    have hfind' : t.groups.find?
        (fun g => !(g.name == "") && (pyLower g.name == pyLower g₁.name)) = none :=
      hfind
    have hnone : ∀ x ∈ t.groups,
        (!(x.name == "") && (pyLower x.name == pyLower g₂.name)) = false := by
      intro x hx
      rw [hkey]
      have := List.find?_eq_none.mp hfind' x hx
      rw [Bool.eq_false_iff]
      exact this
    have hfind2 :
        ({ next_id := t.next_id + 1,
           groups := t.groups ++ [{ g₁ with group_id := t.next_id }] } :
          GroupTable).find_by_name g₂.name =
        some { g₁ with group_id := t.next_id } := by
      show (t.groups ++ [{ g₁ with group_id := t.next_id }]).find?
          (fun g => !(g.name == "") && (pyLower g.name == pyLower g₂.name)) =
        some { g₁ with group_id := t.next_id }
      rw [find?_append_none _ _ (find?_eq_none_of_false _ _ hnone)]
      refine List.find?_cons_of_pos _ ?_
      show (!(g₁.name == "") && (pyLower g₁.name == pyLower g₂.name)) = true
      rw [hkey, hg₁]
      simp
    rw [group_add_of_found _ g₂ _ hfind2]
    exact ⟨rfl, rfl⟩

/-- The merged row list produced by `upsert_one_echo`. -/
def upsertMergeRows (l : List RecipientRow) (row : RecipientRow) : List RecipientRow :=
  match l.findIdx? (fun r => r.recipient_id == row.recipient_id) with
  | some i => l.set i row
  | none => l ++ [row]

lemma mem_upsertMergeRows (l : List RecipientRow) (row : RecipientRow) :
    ∀ x ∈ upsertMergeRows l row, x ∈ l ∨ x = row := by
  unfold upsertMergeRows
  cases hidx : l.findIdx? (fun r => r.recipient_id == row.recipient_id) with
  | some i =>
    intro x hx
    exact List.mem_or_eq_of_mem_set hx
  | none =>
    intro x hx
    rcases List.mem_append.mp hx with hmem | hmem
    · exact Or.inl hmem
    · exact Or.inr (by simpa using hmem)

lemma row_mem_upsertMergeRows (l : List RecipientRow) (row : RecipientRow) :
    row ∈ upsertMergeRows l row := by
  unfold upsertMergeRows
  cases hidx : l.findIdx? (fun r => r.recipient_id == row.recipient_id) with
  | some i =>
    show row ∈ l.set i row
    have hi : i < l.length :=
      (List.findIdx?_eq_some_iff_findIdx_eq.mp hidx).1
    rw [List.mem_iff_getElem]
    exact ⟨i, by simpa using hi, by simp⟩
  | none =>
    show row ∈ l ++ [row]
    simp

lemma recipient_add_idem (t : RecipientTable) (r₁ r₂ : RecipientRow)
    (h : pyLower r₂.address = pyLower (t.add r₁ .ok).2.address) :
    ((t.add r₁ .ok).1.add r₂ .ok).2.recipient_id = (t.add r₁ .ok).2.recipient_id
    ∧ ((t.add r₁ .ok).1.add r₂ .ok).1.recipients.length
        = (t.add r₁ .ok).1.recipients.length := by
  cases hfind : t.find_by_address r₁.address with
  | some ex =>
    have hadd : t.add r₁ .ok = (t, ex) := recipient_add_of_found t r₁ ex .ok hfind
    rw [hadd] at h ⊢
    have hfind' : t.recipients.find?
        (fun r => pyLower r.address == pyLower r₁.address) = some ex := hfind
    have hbeq : (pyLower ex.address == pyLower r₁.address) = true :=
      List.find?_some (p := fun (r : RecipientRow) => pyLower r.address == pyLower r₁.address) hfind'
    have hkey : pyLower r₂.address = pyLower r₁.address :=
      h.trans (eq_of_beq hbeq)
    have hfind2 : t.find_by_address r₂.address = some ex := by
      show t.recipients.find? (fun r => pyLower r.address == pyLower r₂.address) = some ex
      rw [find?_ext _ (fun r => pyLower r.address == pyLower r₁.address) _
        (fun r => by rw [hkey])]
      exact hfind'
    rw [recipient_add_of_found t r₂ ex .ok hfind2]
    exact ⟨rfl, rfl⟩
  | none =>
    have hadd : t.add r₁ .ok =
        ((RecipientTable.mk (t.next_id + 1)
            (t.recipients ++ [{ r₁ with recipient_id := t.next_id }])).upsert_one_echo
          { r₁ with recipient_id := t.next_id },
         { r₁ with recipient_id := t.next_id }) := by
      unfold RecipientTable.add
      rw [hfind]
    rw [hadd] at h ⊢
    have hkey : pyLower r₂.address = pyLower r₁.address := h
    have hfind' : t.recipients.find?
        (fun r => pyLower r.address == pyLower r₁.address) = none := hfind
    have hnone : ∀ x ∈ t.recipients,
        (pyLower x.address == pyLower r₂.address) = false := by
      intro x hx
      rw [hkey]
      have := List.find?_eq_none.mp hfind' x hx
      rw [Bool.eq_false_iff]
      exact this
    have hmergelist :
        ((RecipientTable.mk (t.next_id + 1)
            (t.recipients ++ [{ r₁ with recipient_id := t.next_id }])).upsert_one_echo
          { r₁ with recipient_id := t.next_id }).recipients
        = upsertMergeRows (t.recipients ++ [{ r₁ with recipient_id := t.next_id }])
            { r₁ with recipient_id := t.next_id } := rfl
    have hrowq : (pyLower ({ r₁ with recipient_id := t.next_id } : RecipientRow).address
        == pyLower r₂.address) = true := by
      show (pyLower r₁.address == pyLower r₂.address) = true
      rw [hkey]
      exact beq_self_eq_true _
    have hmem : ∀ x ∈ upsertMergeRows
        (t.recipients ++ [{ r₁ with recipient_id := t.next_id }])
        { r₁ with recipient_id := t.next_id },
        x ∈ t.recipients ∨ x = { r₁ with recipient_id := t.next_id } := by
      intro x hx
      rcases mem_upsertMergeRows _ _ x hx with hx' | hx'
      · rcases List.mem_append.mp hx' with hx'' | hx''
        · exact Or.inl hx''
        · exact Or.inr (by simpa using hx'')
      · exact Or.inr hx'
    have hfind2 : (upsertMergeRows
        (t.recipients ++ [{ r₁ with recipient_id := t.next_id }])
        { r₁ with recipient_id := t.next_id }).find?
          (fun r => pyLower r.address == pyLower r₂.address)
        = some { r₁ with recipient_id := t.next_id } := by
      cases hf : (upsertMergeRows
          (t.recipients ++ [{ r₁ with recipient_id := t.next_id }])
          { r₁ with recipient_id := t.next_id }).find?
            (fun r => pyLower r.address == pyLower r₂.address) with
      | none =>
        exact absurd hrowq
          (by simpa using List.find?_eq_none.mp hf _ (row_mem_upsertMergeRows _ _))
      | some x =>
        have hqx : (pyLower x.address == pyLower r₂.address) = true :=
          List.find?_some (p := fun (r : RecipientRow) => pyLower r.address == pyLower r₂.address) hf
        rcases hmem x (List.mem_of_find?_eq_some hf) with hx' | hx'
        · exact absurd hqx (by rw [hnone x hx']; exact Bool.false_ne_true)
        · rw [hx']
    have hfound : ((RecipientTable.mk (t.next_id + 1)
        (t.recipients ++ [{ r₁ with recipient_id := t.next_id }])).upsert_one_echo
          { r₁ with recipient_id := t.next_id }).find_by_address r₂.address
        = some { r₁ with recipient_id := t.next_id } := by
      show (upsertMergeRows
        (t.recipients ++ [{ r₁ with recipient_id := t.next_id }])
        { r₁ with recipient_id := t.next_id }).find?
          (fun r => pyLower r.address == pyLower r₂.address)
        = some { r₁ with recipient_id := t.next_id }
      exact hfind2
    rw [recipient_add_of_found _ r₂ _ .ok hfound]
    exact ⟨rfl, rfl⟩

/-- C3 counterexample: the claim fails for the Group repository at the
concrete input "add a group named `\"\"` twice".  `find_by_name`'s guard
`g.get("name") and ...` skips rows with a falsy stored name, so the second
`add` does not see the first record: it returns a record with a fresh id and
the table grows. -/
theorem C3_counterexample_empty_group_name :
    (((GroupTable.mk 1 []).add ⟨0, "", []⟩).1.add ⟨0, "", []⟩).2.group_id ≠
      ((GroupTable.mk 1 []).add ⟨0, "", []⟩).2.group_id
    ∧ (((GroupTable.mk 1 []).add ⟨0, "", []⟩).1.add ⟨0, "", []⟩).1.groups.length ≠
      ((GroupTable.mk 1 []).add ⟨0, "", []⟩).1.groups.length := by
  constructor <;> decide

/-- C3 (amended): for each typed repository (Sender, Recipient, Group), a
second `add` whose unique key equals the first added record's key under
case-insensitive comparison returns a record with the same id and leaves the
record count unchanged — for groups, provided the key is non-empty (an empty
group name bypasses the duplicate check and is re-added under a fresh id).
The Recipient repository (remote-only) is taken on the successful-upsert
path with an echoing server. -/
theorem C3_add_idempotent (ts : SenderTable) (s₁ s₂ : SenderRow)
    (tr : RecipientTable) (r₁ r₂ : RecipientRow)
    (tg : GroupTable) (g₁ g₂ : GroupRow) :
    (pyLower s₂.address = pyLower (ts.add s₁).2.address →
      ((ts.add s₁).1.add s₂).2.sender_id = (ts.add s₁).2.sender_id
      ∧ ((ts.add s₁).1.add s₂).1.senders.length = (ts.add s₁).1.senders.length)
    ∧ (pyLower r₂.address = pyLower (tr.add r₁ .ok).2.address →
      ((tr.add r₁ .ok).1.add r₂ .ok).2.recipient_id = (tr.add r₁ .ok).2.recipient_id
      ∧ ((tr.add r₁ .ok).1.add r₂ .ok).1.recipients.length
          = (tr.add r₁ .ok).1.recipients.length)
    ∧ (g₂.name ≠ "" → pyLower g₂.name = pyLower (tg.add g₁).2.name →
      ((tg.add g₁).1.add g₂).2.group_id = (tg.add g₁).2.group_id
      ∧ ((tg.add g₁).1.add g₂).1.groups.length = (tg.add g₁).1.groups.length) :=
  ⟨fun h => sender_add_idem ts s₁ s₂ h,
   fun h => recipient_add_idem tr r₁ r₂ h,
   fun hne h => group_add_idem tg g₁ g₂ hne h⟩

/-- Witness for C3 at concrete inputs (a case-flipped duplicate address /
name on each repository). -/
theorem C3_add_idempotent_witness :
    ((((SenderTable.mk 1 []).add ⟨0, none, "A@x"⟩).1.add ⟨0, none, "a@X"⟩).2.sender_id
        = ((SenderTable.mk 1 []).add ⟨0, none, "A@x"⟩).2.sender_id
      ∧ (((SenderTable.mk 1 []).add ⟨0, none, "A@x"⟩).1.add ⟨0, none, "a@X"⟩).1.senders.length
        = ((SenderTable.mk 1 []).add ⟨0, none, "A@x"⟩).1.senders.length)
    ∧ ((((RecipientTable.mk 1 []).add ⟨0, "B@y", none⟩ .ok).1.add ⟨0, "b@Y", none⟩ .ok).2.recipient_id
        = ((RecipientTable.mk 1 []).add ⟨0, "B@y", none⟩ .ok).2.recipient_id
      ∧ (((RecipientTable.mk 1 []).add ⟨0, "B@y", none⟩ .ok).1.add ⟨0, "b@Y", none⟩ .ok).1.recipients.length
        = ((RecipientTable.mk 1 []).add ⟨0, "B@y", none⟩ .ok).1.recipients.length)
    ∧ ((((GroupTable.mk 1 []).add ⟨0, "Team", []⟩).1.add ⟨0, "team", []⟩).2.group_id
        = ((GroupTable.mk 1 []).add ⟨0, "Team", []⟩).2.group_id
      ∧ (((GroupTable.mk 1 []).add ⟨0, "Team", []⟩).1.add ⟨0, "team", []⟩).1.groups.length
        = ((GroupTable.mk 1 []).add ⟨0, "Team", []⟩).1.groups.length) := by
  have h := C3_add_idempotent ⟨1, []⟩ ⟨0, none, "A@x"⟩ ⟨0, none, "a@X"⟩
    ⟨1, []⟩ ⟨0, "B@y", none⟩ ⟨0, "b@Y", none⟩
    ⟨1, []⟩ ⟨0, "Team", []⟩ ⟨0, "team", []⟩
  exact ⟨h.1 (by decide), h.2.1 (by decide), h.2.2 (by decide) (by decide)⟩
/-- C4: adding the same membership pair twice leaves exactly one row with that
pair in the table, and the second `add_membership` returns `false` without
modifying the table and without raising. -/
theorem C4_add_membership_idempotent (t : MembershipTable) (r g : Nat)
    (h : MembershipRow.mk r g ∉ t.rows) :
    ((t.add_membership r g).2 = true)
    ∧ ((t.add_membership r g).1.rows.count (MembershipRow.mk r g) = 1)
    ∧ ((t.add_membership r g).1.add_membership r g = ((t.add_membership r g).1, false)) := by
  have hany : (t.rows.any (fun m => m.recipient_id == r && m.group_id == g)) = false := by
    rw [Bool.eq_false_iff]
    intro hc
    exact h ((membership_any_iff t.rows r g).mp hc)
  have hstep : t.add_membership r g =
      ({ next_id := t.next_id + 1, rows := t.rows ++ [⟨r, g⟩] }, true) := by
    unfold MembershipTable.add_membership
    rw [hany]
    simp
  refine ⟨by rw [hstep], ?_, ?_⟩
  · rw [hstep]
    simp [List.count_append, List.count_eq_zero.mpr h]
  · rw [hstep]
    have hmem : MembershipRow.mk r g ∈ t.rows ++ [MembershipRow.mk r g] := by
      simp
    have hany2 : ((t.rows ++ [MembershipRow.mk r g]).any
        (fun m => m.recipient_id == r && m.group_id == g)) = true :=
      (membership_any_iff _ r g).mpr hmem
    unfold MembershipTable.add_membership
    rw [hany2]
    simp

/-- Witness for C4 at a concrete input: the empty membership table and the
pair (1, 2). -/
theorem C4_add_membership_idempotent_witness :
    (((MembershipTable.mk 1 []).add_membership 1 2).2 = true)
    ∧ ((((MembershipTable.mk 1 []).add_membership 1 2).1.rows.count
          (MembershipRow.mk 1 2) = 1))
    ∧ ((((MembershipTable.mk 1 []).add_membership 1 2).1.add_membership 1 2 =
          (((MembershipTable.mk 1 []).add_membership 1 2).1, false))) :=
  C4_add_membership_idempotent ⟨1, []⟩ 1 2 (by decide)

/-! ## Cascade service (`RecipientGroupController.delete_group`)

The controller holds a `RecipientDao`, a `RecipientGroupDao` and a
`RecipientGroupMembershipDao`; the cascade only reads and filters their row
lists (it never reads a `next_id`), so its state is the three lists.  Remote
deletions (`supabase_client.delete_by_filters` / `delete_row`) are wrapped in
`try/except: pass` and do not affect the local state; `_save` after a local
delete is the echoing save, which leaves the row lists unchanged.  Failures
of the per-member sub-steps are modelled by oracles giving, per member id,
whether that sub-step raises (a raised sub-step leaves the state unchanged
and is swallowed by its `except` block). -/

/-- Combined in-memory state of the three DAOs used by the cascade. -/
structure Store where
  recipients : List RecipientRow
  groups : List GroupRow
  memberships : List MembershipRow
deriving DecidableEq, Repr

/-- `membership_dao.list_group_members` on the combined state. -/
def Store.list_group_members (st : Store) (g : Nat) : List Nat :=
  (st.memberships.filter (fun m => m.group_id == g)).map (·.recipient_id)

/-- `membership_dao.list_recipient_groups` on the combined state. -/
def Store.list_recipient_groups (st : Store) (rid : Nat) : List Nat :=
  (st.memberships.filter (fun m => m.recipient_id == rid)).map (·.group_id)

/-- `membership_dao.remove_membership` on the combined state (row filter). -/
def Store.remove_membership_rows (st : Store) (rid g : Nat) : Store :=
  { st with memberships :=
      st.memberships.filter (fun m => !(m.recipient_id == rid && m.group_id == g)) }

/-- `recipient_dao.delete` on the combined state (row filter). -/
def Store.delete_recipient_rows (st : Store) (rid : Nat) : Store :=
  { st with recipients := st.recipients.filter (fun r => !(r.recipient_id == rid)) }

/-- Step 2 of `delete_group` for one member id: remove its membership rows,
unless this member's removal sub-step raises (`fRem rid = true`), in which
case the failure is logged and swallowed. -/
def removalStep (fRem : Nat → Bool) (g : Nat) (st : Store) (rid : Nat) : Store :=
  if fRem rid then st else st.remove_membership_rows rid g

/-- Step 3 of `delete_group` for one member id: re-resolve the member's
remaining memberships; if the list is empty or every entry equals the deleted
group, delete the recipient.  `fOrphan rid = true` models this member's
orphan-evaluation sub-step raising (logged and swallowed). -/
def orphanStep (fOrphan : Nat → Bool) (g : Nat) (st : Store) (rid : Nat) : Store :=
  if fOrphan rid then st
  else
    if (st.list_recipient_groups rid).isEmpty
        || (st.list_recipient_groups rid).all (fun gid => gid == g) then
      st.delete_recipient_rows rid
    else st

/-- `RecipientGroupController.delete_group`, steps 1–4, with the member set
resolved from the Membership table (step 1's success branch): gather member
ids, remove each member's membership rows (best effort), reclaim orphaned
member recipients (best effort), then delete the group record and report
whether it was present. -/
def Store.delete_group_run (fRem fOrphan : Nat → Bool) (st : Store) (g : Nat) :
    Store × Bool :=
  let member_ids := st.list_group_members g
  let st1 := member_ids.foldl (removalStep fRem g) st
  let st2 := member_ids.foldl (orphanStep fOrphan g) st1
  let groups' := st2.groups.filter (fun gr => !(gr.group_id == g))
  ({ st2 with groups := groups' }, decide (groups'.length < st2.groups.length))

/-- `RecipientGroupController.delete_group` including the final step's own
failure: when deleting the group record itself raises (`fGroup = true`), the
outer handler re-raises `EmailServiceError`; otherwise the result of the run
is returned. -/
def Store.delete_group_res (fRem fOrphan : Nat → Bool) (fGroup : Bool) (st : Store)
    (g : Nat) : Except Unit (Store × Bool) :=
  if fGroup then .error () else .ok (st.delete_group_run fRem fOrphan g)

/-- `RecipientGroupController.delete_group` on the success path: no sub-step
raises. -/
def Store.delete_group (st : Store) (g : Nat) : Store × Bool :=
  st.delete_group_run (fun _ => false) (fun _ => false) g

/-- "Recipient `rid` belongs to no group other than `g`": every membership
row of `rid` names group `g` (vacuously true when `rid` has no rows). -/
def belongs_only_to (st : Store) (rid g : Nat) : Prop :=
  ∀ m ∈ st.memberships, m.recipient_id = rid → m.group_id = g

instance (st : Store) (rid g : Nat) : Decidable (belongs_only_to st rid g) := by
  unfold belongs_only_to
  infer_instance

/-! Fold lemmas for the cascade. -/

lemma removalStep_groups (fRem : Nat → Bool) (g : Nat) (st : Store) (rid : Nat) :
    (removalStep fRem g st rid).groups = st.groups := by
  unfold removalStep Store.remove_membership_rows
  split <;> rfl

lemma removalStep_recipients (fRem : Nat → Bool) (g : Nat) (st : Store) (rid : Nat) :
    (removalStep fRem g st rid).recipients = st.recipients := by
  unfold removalStep Store.remove_membership_rows
  split <;> rfl

lemma orphanStep_groups (fOrphan : Nat → Bool) (g : Nat) (st : Store) (rid : Nat) :
    (orphanStep fOrphan g st rid).groups = st.groups := by
  unfold orphanStep Store.delete_recipient_rows
  split
  · rfl
  · split <;> rfl

lemma orphanStep_memberships (fOrphan : Nat → Bool) (g : Nat) (st : Store) (rid : Nat) :
    (orphanStep fOrphan g st rid).memberships = st.memberships := by
  unfold orphanStep Store.delete_recipient_rows
  split
  · rfl
  · split <;> rfl

lemma foldl_removal_groups (fRem : Nat → Bool) (g : Nat) :
    ∀ (rids : List Nat) (st : Store),
      (rids.foldl (removalStep fRem g) st).groups = st.groups := by
  intro rids
  induction rids with
  | nil => intro st; rfl
  | cons r rest ih =>
    intro st
    rw [List.foldl_cons, ih, removalStep_groups]

lemma foldl_removal_recipients (fRem : Nat → Bool) (g : Nat) :
    ∀ (rids : List Nat) (st : Store),
      (rids.foldl (removalStep fRem g) st).recipients = st.recipients := by
  intro rids
  induction rids with
  | nil => intro st; rfl
  | cons r rest ih =>
    intro st
    rw [List.foldl_cons, ih, removalStep_recipients]

lemma foldl_orphan_groups (fOrphan : Nat → Bool) (g : Nat) :
    ∀ (rids : List Nat) (st : Store),
      (rids.foldl (orphanStep fOrphan g) st).groups = st.groups := by
  intro rids
  induction rids with
  | nil => intro st; rfl
  | cons r rest ih =>
    intro st
    rw [List.foldl_cons, ih, orphanStep_groups]

lemma foldl_orphan_memberships (fOrphan : Nat → Bool) (g : Nat) :
    ∀ (rids : List Nat) (st : Store),
      (rids.foldl (orphanStep fOrphan g) st).memberships = st.memberships := by
  intro rids
  induction rids with
  | nil => intro st; rfl
  | cons r rest ih =>
    intro st
    rw [List.foldl_cons, ih, orphanStep_memberships]

lemma mem_foldl_removal (fRem : Nat → Bool) (g : Nat) :
    ∀ (rids : List Nat) (st : Store) (m : MembershipRow),
      m ∈ (rids.foldl (removalStep fRem g) st).memberships → m ∈ st.memberships := by
  intro rids
  induction rids with
  | nil => intro st m hm; exact hm
  | cons r rest ih =>
    intro st m hm
    rw [List.foldl_cons] at hm
    have := ih (removalStep fRem g st r) m hm
    unfold removalStep Store.remove_membership_rows at this
    split at this
    · exact this
    · exact List.mem_of_mem_filter this

lemma removal_removes (fRem : Nat → Bool) (g : Nat) :
    ∀ (rids : List Nat) (st : Store) (rid : Nat), rid ∈ rids → fRem rid = false →
      ∀ m ∈ (rids.foldl (removalStep fRem g) st).memberships,
        ¬(m.recipient_id = rid ∧ m.group_id = g) := by
  intro rids
  induction rids with
  | nil => intro st rid h; cases h
  | cons r rest ih =>
    intro st rid hmem hfail m hm
    rw [List.foldl_cons] at hm
    rcases List.mem_cons.mp hmem with heq | htail
    · subst heq
      have hm' : m ∈ (removalStep fRem g st rid).memberships :=
        mem_foldl_removal fRem g rest _ m hm
      unfold removalStep Store.remove_membership_rows at hm'
      rw [hfail] at hm'
      simp only [if_neg Bool.false_ne_true] at hm'
      have := List.of_mem_filter hm'
      intro hc
      rw [hc.1, hc.2] at this
      simp at this
    · exact ih (removalStep fRem g st r) rid htail hfail m hm

/-- When the filtered predicate drops at least one element, `length` shrinks:
the Bool the DAO `delete` methods return. -/
lemma filter_shrank {α} (q : α → Bool) (l : List α) :
    decide ((l.filter (fun x => !q x)).length < l.length) = l.any q := by
  induction l with
  | nil => rfl
  | cons x xs ih =>
    cases hqx : q x with
    | true =>
      have hle : (xs.filter (fun x => !q x)).length ≤ xs.length :=
        List.length_filter_le _ _
      simp [List.filter_cons, hqx, Nat.lt_succ_iff, hle]
    | false =>
      simp [List.filter_cons, hqx, Nat.succ_lt_succ_iff, ← ih]

/-- C2: in the cascade delete, per-member membership-removal and
orphan-reclamation failures are swallowed: the result is an error exactly
when the final step (deleting the group record itself) fails; with the final
step succeeding, the group record is removed and the reported Boolean is
"the group record was present", independently of every per-member failure;
and each member whose removal sub-step did not fail has its membership rows
for the group removed regardless of the other members' failures. -/
theorem C2_cascade_best_effort (st : Store) (g : Nat) (fRem fOrphan : Nat → Bool)
    (fGroup : Bool) :
    ((Store.delete_group_res fRem fOrphan fGroup st g).isOk = !fGroup)
    ∧ (Store.delete_group_res fRem fOrphan false st g =
        .ok (st.delete_group_run fRem fOrphan g))
    ∧ ((st.delete_group_run fRem fOrphan g).1.groups =
        st.groups.filter (fun gr => !(gr.group_id == g)))
    ∧ ((st.delete_group_run fRem fOrphan g).2 =
        st.groups.any (fun gr => gr.group_id == g))
    ∧ (∀ rid ∈ st.list_group_members g, fRem rid = false →
        ∀ m ∈ (st.delete_group_run fRem fOrphan g).1.memberships,
          ¬(m.recipient_id = rid ∧ m.group_id = g)) := by
  have hgroups : ∀ st' : Store,
      ((st.list_group_members g).foldl (orphanStep fOrphan g)
        ((st.list_group_members g).foldl (removalStep fRem g) st')).groups
      = st'.groups := by
    intro st'
    rw [foldl_orphan_groups, foldl_removal_groups]
  refine ⟨?_, rfl, ?_, ?_, ?_⟩
  · cases fGroup <;> rfl
  · show ((st.list_group_members g).foldl (orphanStep fOrphan g)
        ((st.list_group_members g).foldl (removalStep fRem g) st)).groups.filter
          (fun gr => !(gr.group_id == g))
      = st.groups.filter (fun gr => !(gr.group_id == g))
    rw [hgroups]
  · show decide (_ < _) = _
    rw [hgroups st]
    exact filter_shrank _ _
  · intro rid hrid hfail m hm
    have hm' : m ∈ ((st.list_group_members g).foldl (removalStep fRem g) st).memberships := by
      have := hm
      show m ∈ _
      rw [← foldl_orphan_memberships fOrphan g (st.list_group_members g)
        ((st.list_group_members g).foldl (removalStep fRem g) st)]
      exact hm
    exact removal_removes fRem g _ st rid hrid hfail m hm'

/-- Witness for C2 at a concrete input: two groups, two recipients, three
membership rows; the removal sub-step for member 1 fails, the rest succeed. -/
theorem C2_cascade_best_effort_witness :
    ((Store.delete_group_res (fun rid => rid == 1) (fun _ => false) false
        ⟨[⟨1, "x", none⟩, ⟨2, "y", none⟩], [⟨1, "A", []⟩, ⟨2, "B", []⟩],
          [⟨1, 1⟩, ⟨2, 1⟩, ⟨2, 2⟩]⟩ 1).isOk = !false)
    ∧ (¬((MembershipRow.mk 2 2).recipient_id = 2 ∧ (MembershipRow.mk 2 2).group_id = 1)) := by
  have h := C2_cascade_best_effort
    ⟨[⟨1, "x", none⟩, ⟨2, "y", none⟩], [⟨1, "A", []⟩, ⟨2, "B", []⟩],
      [⟨1, 1⟩, ⟨2, 1⟩, ⟨2, 2⟩]⟩ 1 (fun rid => rid == 1) (fun _ => false) false
  exact ⟨h.1, h.2.2.2.2 2 (by decide) (by decide) ⟨2, 2⟩ (by decide)⟩

/-! ## C1: orphan reclamation in the cascade delete (success path) -/

lemma nat_beq_decide (x r : Nat) : (x == r) = decide (x = r) := by
  rw [Bool.eq_iff_iff]
  simp

lemma step2_bool (a b c : Bool) : (!(a && c) && !(b && c)) = !((a || b) && c) := by
  cases a <;> cases b <;> cases c <;> rfl

lemma foldl_removal_chars (g : Nat) :
    ∀ (rids : List Nat) (st : Store),
      ((rids.foldl (removalStep (fun _ => false) g) st)).memberships =
        st.memberships.filter
          (fun m => !(decide (m.recipient_id ∈ rids) && m.group_id == g)) := by
  intro rids
  induction rids with
  | nil =>
    intro st
    simp
  | cons r rest ih =>
    intro st
    rw [List.foldl_cons]
    show ((rest.foldl (removalStep (fun _ => false) g)
        (removalStep (fun _ => false) g st r))).memberships = _
    rw [ih]
    show ((st.memberships.filter
        (fun m => !(m.recipient_id == r && m.group_id == g))).filter
        (fun m => !(decide (m.recipient_id ∈ rest) && m.group_id == g))) = _
    rw [List.filter_filter]
    apply List.filter_congr
    intro m _
    rw [nat_beq_decide m.recipient_id r, step2_bool]
    congr 1
    congr 1
    rw [Bool.eq_iff_iff]
    simp only [Bool.or_eq_true, decide_eq_true_eq, List.mem_cons]
    exact Or.comm

lemma step2_final (st : Store) (g : Nat) :
    ((st.list_group_members g).foldl (removalStep (fun _ => false) g) st).memberships =
      st.memberships.filter (fun m => !(m.group_id == g)) := by
  rw [foldl_removal_chars]
  apply List.filter_congr
  intro m hm
  cases hg : (m.group_id == g) with
  | false => simp
  | true =>
    have hmem : m.recipient_id ∈ st.list_group_members g := by
      unfold Store.list_group_members
      exact List.mem_map_of_mem _ (List.mem_filter.mpr ⟨hm, hg⟩)
    simp [hmem]

/-- The orphan condition evaluated by step 3 of the cascade for one member:
the member's re-resolved membership list is empty or names only the deleted
group. -/
def orphanCond (st : Store) (g rid : Nat) : Bool :=
  (st.list_recipient_groups rid).isEmpty
    || (st.list_recipient_groups rid).all (fun gid => gid == g)

lemma orphanStep_eq (g : Nat) (st : Store) (rid : Nat) :
    orphanStep (fun _ => false) g st rid =
      if orphanCond st g rid then st.delete_recipient_rows rid else st := rfl

lemma orphanCond_congr (g x : Nat) (st st' : Store)
    (h : st'.memberships = st.memberships) :
    orphanCond st' g x = orphanCond st g x := by
  unfold orphanCond Store.list_recipient_groups
  rw [h]

lemma foldl_orphan_chars (g : Nat) :
    ∀ (rids : List Nat) (st : Store),
      ((rids.foldl (orphanStep (fun _ => false) g) st)).recipients =
        st.recipients.filter
          (fun r => !(decide (r.recipient_id ∈ rids) && orphanCond st g r.recipient_id)) := by
  intro rids
  induction rids with
  | nil =>
    intro st
    simp
  | cons rid rest ih =>
    intro st
    rw [List.foldl_cons, ih]
    have hmem : (orphanStep (fun _ => false) g st rid).memberships = st.memberships :=
      orphanStep_memberships _ _ _ _
    have hcond : ∀ x, orphanCond (orphanStep (fun _ => false) g st rid) g x
        = orphanCond st g x := fun x => orphanCond_congr g x st _ hmem
    rw [List.filter_congr (fun r _ => by rw [hcond r.recipient_id])]
    rw [orphanStep_eq]
    cases hc : orphanCond st g rid with
    | true =>
      rw [if_pos rfl]
      show (st.recipients.filter (fun r => !(r.recipient_id == rid))).filter _ = _
      rw [List.filter_filter]
      apply List.filter_congr
      intro r _
      cases hb : (r.recipient_id == rid) with
      | true =>
        have hr : r.recipient_id = rid := eq_of_beq hb
        rw [hr, hc]
        simp
      | false =>
        have hr : r.recipient_id ≠ rid := by
          intro hcontra
          rw [hcontra] at hb
          simp at hb
        simp [List.mem_cons, hr]
    | false =>
      rw [if_neg (by simp [hc])]
      apply List.filter_congr
      intro r _
      cases hb : (r.recipient_id == rid) with
      | true =>
        have hr : r.recipient_id = rid := eq_of_beq hb
        rw [hr, hc]
        simp
      | false =>
        have hr : r.recipient_id ≠ rid := by
          intro hcontra
          rw [hcontra] at hb
          simp at hb
        simp [List.mem_cons, hr]

lemma orphanCond_step2 (st : Store) (g x : Nat) :
    orphanCond ((st.list_group_members g).foldl (removalStep (fun _ => false) g) st) g x
      = decide (belongs_only_to st x g) := by
  have hm := step2_final st g
  unfold orphanCond Store.list_recipient_groups
  rw [hm]
  by_cases hp : belongs_only_to st x g
  · rw [decide_eq_true hp]
    have hnil : (st.memberships.filter (fun m => !(m.group_id == g))).filter
        (fun m => m.recipient_id == x) = [] := by
      rw [List.filter_eq_nil_iff]
      intro m hmm
      have hm1 := List.mem_filter.mp hmm
      have hgne : (m.group_id == g) = false := by
        have := hm1.2
        cases hgg : (m.group_id == g) with
        | false => rfl
        | true => rw [hgg] at this; simp at this
      intro hrx
      have hrx' : m.recipient_id = x := eq_of_beq hrx
      have := hp m hm1.1 hrx'
      rw [this] at hgne
      simp at hgne
    rw [hnil]
    rfl
  · rw [decide_eq_false hp]
    unfold belongs_only_to at hp
    push_neg at hp
    obtain ⟨m, hmm, hrx, hgg⟩ := hp
    have hmem2 : m ∈ (st.memberships.filter (fun m => !(m.group_id == g))).filter
        (fun m => m.recipient_id == x) := by
      refine List.mem_filter.mpr ⟨List.mem_filter.mpr ⟨hmm, ?_⟩, ?_⟩
      · simp [hgg]
      · simp [hrx]
    have hog : m.group_id ∈ ((st.memberships.filter
        (fun m => !(m.group_id == g))).filter
        (fun m => m.recipient_id == x)).map (·.group_id) :=
      List.mem_map_of_mem _ hmem2
    rw [Bool.or_eq_false_iff]
    constructor
    · rw [List.isEmpty_eq_false_iff_exists_mem]
      exact ⟨m.group_id, hog⟩
    · rw [Bool.eq_false_iff]
      intro hall
      have := List.all_eq_true.mp hall m.group_id hog
      exact hgg (eq_of_beq this)

lemma delete_group_recipients (st : Store) (g : Nat) :
    (st.delete_group g).1.recipients =
      st.recipients.filter
        (fun r => !(decide (r.recipient_id ∈ st.list_group_members g)
                    && decide (belongs_only_to st r.recipient_id g))) := by
  show ((st.list_group_members g).foldl (orphanStep (fun _ => false) g)
      ((st.list_group_members g).foldl (removalStep (fun _ => false) g) st)).recipients = _
  rw [foldl_orphan_chars]
  rw [foldl_removal_recipients]
  apply List.filter_congr
  intro r _
  rw [orphanCond_step2]

lemma delete_group_memberships (st : Store) (g : Nat) :
    (st.delete_group g).1.memberships =
      st.memberships.filter (fun m => !(m.group_id == g)) := by
  show ((st.list_group_members g).foldl (orphanStep (fun _ => false) g)
      ((st.list_group_members g).foldl (removalStep (fun _ => false) g) st)).memberships = _
  rw [foldl_orphan_memberships, step2_final]

lemma delete_group_groups_filter (st : Store) (g : Nat) :
    (st.delete_group g).1.groups = st.groups.filter (fun gr => !(gr.group_id == g)) := by
  show (((st.list_group_members g).foldl (orphanStep (fun _ => false) g)
      ((st.list_group_members g).foldl (removalStep (fun _ => false) g) st))).groups.filter _ = _
  rw [foldl_orphan_groups, foldl_removal_groups]

lemma members_nodup (st : Store) (g : Nat) (h : st.memberships.Nodup) :
    (st.list_group_members g).Nodup := by
  unfold Store.list_group_members
  refine List.Nodup.map_on ?_ (h.filter _)
  intro m1 h1 m2 h2 heq
  have hg1 : m1.group_id = g := eq_of_beq (List.mem_filter.mp h1).2
  have hg2 : m2.group_id = g := eq_of_beq (List.mem_filter.mp h2).2
  cases m1 with
  | mk r1 g1 =>
    cases m2 with
    | mk r2 g2 =>
      simp only at heq hg1 hg2
      rw [heq, hg1, hg2]

/-- C1: on the success path of the cascade delete, with the member set
resolved from the Membership table, (a) no membership row of the deleted
group survives, (b) every member recipient whose memberships all name the
deleted group (or who has none) is removed from the Recipient repository,
(c) every member recipient retaining a membership in another group stays,
(d) the recipient count drops by exactly the number of members that belonged
only to the deleted group, and (e) the group record itself is gone.  The
table invariants (no duplicate membership pairs, unique recipient ids,
members present in the recipient table) are hypotheses. -/
theorem C1_cascade_orphan_reclamation (st : Store) (g : Nat)
    (hnodup : st.memberships.Nodup)
    (hrnodup : (st.recipients.map (·.recipient_id)).Nodup)
    (hmem : ∀ rid ∈ st.list_group_members g, rid ∈ st.recipients.map (·.recipient_id)) :
    (∀ m ∈ (st.delete_group g).1.memberships, ¬ m.group_id = g)
    ∧ (∀ r ∈ st.recipients, r.recipient_id ∈ st.list_group_members g →
        belongs_only_to st r.recipient_id g → r ∉ (st.delete_group g).1.recipients)
    ∧ (∀ r ∈ st.recipients, r.recipient_id ∈ st.list_group_members g →
        ¬ belongs_only_to st r.recipient_id g → r ∈ (st.delete_group g).1.recipients)
    ∧ ((st.delete_group g).1.recipients.length +
        ((st.list_group_members g).filter
          (fun rid => decide (belongs_only_to st rid g))).length
        = st.recipients.length)
    ∧ ((st.delete_group g).1.groups.filter (fun gr => gr.group_id == g) = []) := by
  refine ⟨?_, ?_, ?_, ?_, ?_⟩
  · intro m hm
    rw [delete_group_memberships] at hm
    have := (List.mem_filter.mp hm).2
    intro hc
    rw [hc] at this
    simp at this
  · intro r hr hmemr honly hfinal
    rw [delete_group_recipients] at hfinal
    have := (List.mem_filter.mp hfinal).2
    rw [decide_eq_true hmemr, decide_eq_true honly] at this
    simp at this
  · intro r hr hmemr hnot
    rw [delete_group_recipients]
    refine List.mem_filter.mpr ⟨hr, ?_⟩
    rw [decide_eq_false hnot]
    simp
  · rw [delete_group_recipients]
    have hsplit := (List.length_eq_length_filter_add
      (l := st.recipients)
      (fun r => decide (r.recipient_id ∈ st.list_group_members g)
        && decide (belongs_only_to st r.recipient_id g)))
    rw [hsplit, Nat.add_comm]
    congr 1
    -- (filter q recipients).length = (filter bdec members).length
    have hmapfil : (st.recipients.filter
        (fun r => decide (r.recipient_id ∈ st.list_group_members g)
          && decide (belongs_only_to st r.recipient_id g))).map (·.recipient_id)
      = (st.recipients.map (·.recipient_id)).filter
          (fun i => decide (i ∈ st.list_group_members g)
            && decide (belongs_only_to st i g)) := by
      induction st.recipients with
      | nil => rfl
      | cons r rest ih =>
        rw [List.filter_cons, List.map_cons, List.filter_cons]
        cases hq : (decide (r.recipient_id ∈ st.list_group_members g)
            && decide (belongs_only_to st r.recipient_id g)) with
        | true => rw [if_pos rfl, if_pos rfl, List.map_cons, ih]
        | false =>
          rw [if_neg (by simp [hq]), if_neg (by simp [hq]), ih]
    have hlen : (st.recipients.filter
        (fun r => decide (r.recipient_id ∈ st.list_group_members g)
          && decide (belongs_only_to st r.recipient_id g))).length
      = ((st.recipients.map (·.recipient_id)).filter
          (fun i => decide (i ∈ st.list_group_members g)
            && decide (belongs_only_to st i g))).length := by
      rw [← hmapfil, List.length_map]
    rw [hlen]
    have hq' : ∀ i ∈ st.recipients.map (·.recipient_id),
        (decide (i ∈ st.list_group_members g) && decide (belongs_only_to st i g))
        = decide (i ∈ (st.list_group_members g).filter
            (fun rid => decide (belongs_only_to st rid g))) := by
      intro i _
      rw [Bool.eq_iff_iff]
      simp [List.mem_filter]
    rw [List.filter_congr hq']
    have hperm : List.Perm
        ((st.recipients.map (·.recipient_id)).filter
          (fun i => decide (i ∈ (st.list_group_members g).filter
            (fun rid => decide (belongs_only_to st rid g)))))
        ((st.list_group_members g).filter
          (fun rid => decide (belongs_only_to st rid g))) := by
      apply List.perm_of_nodup_nodup_toFinset_eq
      · exact hrnodup.filter _
      · exact (members_nodup st g hnodup).filter _
      · ext x
        simp only [List.mem_toFinset, List.mem_filter, decide_eq_true_eq]
        constructor
        · intro hx
          exact hx.2
        · intro hx
          exact ⟨hmem x hx.1, hx⟩
    exact hperm.length_eq.symm
  · rw [delete_group_groups_filter, List.filter_filter]
    rw [List.filter_eq_nil_iff]
    intro gr _
    cases hb : (gr.group_id == g) <;> simp [hb]

/-- Witness for C1: the spec's own scenario — group 1 ("A") with members 1
and 2, recipient 2 also in group 2 ("B"); deleting group 1 leaves one
recipient and no group-1 rows. -/
theorem C1_cascade_orphan_reclamation_witness :
    (((Store.mk [⟨1, "x@example.com", none⟩, ⟨2, "y@example.com", none⟩]
        [⟨1, "A", []⟩, ⟨2, "B", []⟩]
        [⟨1, 1⟩, ⟨2, 1⟩, ⟨2, 2⟩]).delete_group 1).1.recipients.length +
      (((Store.mk [⟨1, "x@example.com", none⟩, ⟨2, "y@example.com", none⟩]
        [⟨1, "A", []⟩, ⟨2, "B", []⟩]
        [⟨1, 1⟩, ⟨2, 1⟩, ⟨2, 2⟩]).list_group_members 1).filter
          (fun rid => decide (belongs_only_to
            (Store.mk [⟨1, "x@example.com", none⟩, ⟨2, "y@example.com", none⟩]
              [⟨1, "A", []⟩, ⟨2, "B", []⟩]
              [⟨1, 1⟩, ⟨2, 1⟩, ⟨2, 2⟩]) rid 1))).length
      = (Store.mk [⟨1, "x@example.com", none⟩, ⟨2, "y@example.com", none⟩]
          [⟨1, "A", []⟩, ⟨2, "B", []⟩]
          [⟨1, 1⟩, ⟨2, 1⟩, ⟨2, 2⟩]).recipients.length)
    ∧ (((Store.mk [⟨1, "x@example.com", none⟩, ⟨2, "y@example.com", none⟩]
        [⟨1, "A", []⟩, ⟨2, "B", []⟩]
        [⟨1, 1⟩, ⟨2, 1⟩, ⟨2, 2⟩]).delete_group 1).1.groups.filter
          (fun gr => gr.group_id == 1) = []) := by
  have h := C1_cascade_orphan_reclamation
    (Store.mk [⟨1, "x@example.com", none⟩, ⟨2, "y@example.com", none⟩]
      [⟨1, "A", []⟩, ⟨2, "B", []⟩]
      [⟨1, 1⟩, ⟨2, 1⟩, ⟨2, 2⟩]) 1
    (by decide) (by decide) (by decide)
  exact ⟨h.2.2.2.1, h.2.2.2.2⟩

/-! ## C5 / C6: `BaseDao._load` next-id computation and construction fallback

`BaseDao._load` works on dynamically shaped rows (dicts).  A row is a list of
(key, value) pairs in dict order; a value is an int, Python `None`, or a
value on which `int(...)` raises (e.g. a non-numeric string). -/

/-- A Python value as seen by the `_load` max-id scan. -/
inductive PyVal where
  /-- an int (also covers numeric strings, which `int` parses) -/
  | vint : Int → PyVal
  /-- Python `None` -/
  | vnull : PyVal
  /-- any value on which `int(...)` raises -/
  | vother : PyVal
deriving DecidableEq, Repr

/-- A row returned by the remote fetch: dict as ordered (key, value) pairs. -/
abbrev LoadRow := List (String × PyVal)

/-- Python `r.get(k)`: the value under the first matching key, if any. -/
def rowGet (r : LoadRow) (k : String) : Option PyVal :=
  (r.find? (fun kv => kv.1 == k)).map (·.2)

/-- `int(r.get(pk) or 0)` in `_load`: a missing key or `None` gives 0 (via
`or 0`); an int gives itself; anything else raises and the row is skipped. -/
def pkCandidate (r : LoadRow) (pk : String) : Option Int :=
  match rowGet r pk with
  | none => some 0
  | some .vnull => some 0
  | some (.vint n) => some n
  | some .vother => none

/-- `_load`'s primary-key guess: the first key of the *first* row that ends
in `_id`; `None` when there are no rows or no such key. -/
def guessPk (items : List LoadRow) : Option String :=
  match items with
  | [] => none
  | r :: _ => (r.map Prod.fst).find? (fun k => pyEndsWith k "_id")

/-- The fold step of `_load`'s max-id scan over one row. -/
def loadMaxStep (pk : String) (mx : Int) (r : LoadRow) : Int :=
  match pkCandidate r pk with
  | some v => if v > mx then v else mx
  | none => mx

/-- `_load`'s `max_id`: the maximum of the guessed primary-key column over
all rows (0 when no key was guessed). -/
def loadMaxId (items : List LoadRow) : Int :=
  match guessPk items with
  | none => 0
  | some pk => items.foldl (loadMaxStep pk) 0

/-- `_load`'s next-id: `max_id + 1 if max_id else 1`. -/
def loadNextId (items : List LoadRow) : Int :=
  if loadMaxId items ≠ 0 then loadMaxId items + 1 else 1

/-- Stated from the spec's words, for comparison with `loadNextId` (C5): one
plus the largest numeric value found in *any* id-suffixed column of any row
("any column whose name signals an identifier is a candidate"), defaulting
to 1 when no rows exist. -/
def specMaxId (items : List LoadRow) : Int :=
  items.foldl
    (fun mx r =>
      r.foldl
        (fun mx kv =>
          if pyEndsWith kv.1 "_id" then
            match kv.2 with
            | .vint n => if n > mx then n else mx
            | _ => mx
          else mx)
        mx)
    0

/-- Spec-side next-id (C5 comparison definition). -/
def specNextId (items : List LoadRow) : Int :=
  if items.isEmpty then 1 else specMaxId items + 1

lemma loadMaxStep_le (pk : String) :
    ∀ (items : List LoadRow) (init : Int), init ≤ items.foldl (loadMaxStep pk) init := by
  intro items
  induction items with
  | nil => intro init; exact le_refl _
  | cons r rest ih =>
    intro init
    rw [List.foldl_cons]
    refine le_trans ?_ (ih (loadMaxStep pk init r))
    unfold loadMaxStep
    cases pkCandidate r pk with
    | none => exact le_refl _
    | some v =>
      by_cases hv : v > init
      · simp only [if_pos hv]
        exact le_of_lt hv
      · simp only [if_neg hv]
        exact le_refl _

lemma loadMaxStep_cases (pk : String) (init : Int) (r : LoadRow) :
    loadMaxStep pk init r = init ∨ pkCandidate r pk = some (loadMaxStep pk init r) := by
  unfold loadMaxStep
  cases hc : pkCandidate r pk with
  | none => exact Or.inl rfl
  | some v =>
    dsimp only
    by_cases hv : v > init
    · rw [if_pos hv]
      exact Or.inr rfl
    · rw [if_neg hv]
      exact Or.inl rfl

lemma loadMaxStep_bound (pk : String) :
    ∀ (items : List LoadRow) (init : Int) (r : LoadRow), r ∈ items →
      ∀ v, pkCandidate r pk = some v → v ≤ items.foldl (loadMaxStep pk) init := by
  intro items
  induction items with
  | nil => intro init r h; cases h
  | cons r0 rest ih =>
    intro init r hmem v hv
    rw [List.foldl_cons]
    rcases List.mem_cons.mp hmem with heq | htail
    · subst heq
      refine le_trans ?_ (loadMaxStep_le pk rest _)
      unfold loadMaxStep
      rw [hv]
      by_cases h : v > init
      · simp only [if_pos h]
        exact le_refl _
      · simp only [if_neg h]
        exact le_of_not_lt h
    · exact ih (loadMaxStep pk init r0) r htail v hv

lemma loadMaxStep_attained (pk : String) :
    ∀ (items : List LoadRow) (init : Int),
      items.foldl (loadMaxStep pk) init = init
      ∨ ∃ r ∈ items, pkCandidate r pk = some (items.foldl (loadMaxStep pk) init) := by
  intro items
  induction items with
  | nil => intro init; exact Or.inl rfl
  | cons r0 rest ih =>
    intro init
    rw [List.foldl_cons]
    rcases ih (loadMaxStep pk init r0) with h | ⟨r, hr, hv⟩
    · rw [h]
      rcases loadMaxStep_cases pk init r0 with h2 | h2
      · rw [h2]
        exact Or.inl rfl
      · exact Or.inr ⟨r0, List.mem_cons_self _ _, h2⟩
    · exact Or.inr ⟨r, List.mem_cons_of_mem _ hr, hv⟩

/-- C5 counterexample: a single row whose dict holds `recipient_id = 1` and
`group_id = 7`.  The claim ("any id-suffixed column is a candidate, largest
value plus one") predicts next-id 8; `_load` uses only the first id-suffixed
key of the first row (`recipient_id`) and produces 2. -/
theorem C5_counterexample_two_id_columns :
    loadNextId [[("recipient_id", PyVal.vint 1), ("group_id", PyVal.vint 7)]] = 2
    ∧ specNextId [[("recipient_id", PyVal.vint 1), ("group_id", PyVal.vint 7)]] = 8
    ∧ loadNextId [[("recipient_id", PyVal.vint 1), ("group_id", PyVal.vint 7)]] ≠
        specNextId [[("recipient_id", PyVal.vint 1), ("group_id", PyVal.vint 7)]] := by
  refine ⟨by decide, by decide, by decide⟩

/-- C5 (amended): after a remote `load()`, next-id is one plus the largest
numeric value of the *single guessed* primary-key column — the first
id-suffixed key of the first row — defaulting to 1 when no rows exist, when
no key is guessed, or when no candidate value is positive. -/
theorem C5_next_id_from_guessed_pk (items : List LoadRow) :
    (items = [] → loadNextId items = 1)
    ∧ (guessPk items = none → loadNextId items = 1)
    ∧ (0 ≤ loadMaxId items)
    ∧ (loadMaxId items ≠ 0 → loadNextId items = loadMaxId items + 1)
    ∧ (∀ pk, guessPk items = some pk →
        (∀ r ∈ items, ∀ v, pkCandidate r pk = some v → v ≤ loadMaxId items)
        ∧ (loadMaxId items = 0
            ∨ ∃ r ∈ items, pkCandidate r pk = some (loadMaxId items))) := by
  refine ⟨?_, ?_, ?_, ?_, ?_⟩
  · intro h
    subst h
    rfl
  · intro h
    unfold loadNextId loadMaxId
    rw [h]
    rfl
  · unfold loadMaxId
    cases hpk : guessPk items with
    | none => exact le_refl _
    | some pk => exact loadMaxStep_le pk items 0
  · intro h
    unfold loadNextId
    rw [if_pos h]
  · intro pk hpk
    constructor
    · intro r hr v hv
      unfold loadMaxId
      rw [hpk]
      exact loadMaxStep_bound pk items 0 r hr v hv
    · unfold loadMaxId
      rw [hpk]
      exact loadMaxStep_attained pk items 0

/-- Witness for C5 (amended) at the counterexample row set. -/
theorem C5_next_id_from_guessed_pk_witness :
    loadNextId [[("recipient_id", PyVal.vint 1), ("group_id", PyVal.vint 7)]] =
      loadMaxId [[("recipient_id", PyVal.vint 1), ("group_id", PyVal.vint 7)]] + 1
    ∧ (1 : Int) ≤ loadMaxId [[("recipient_id", PyVal.vint 1), ("group_id", PyVal.vint 7)]] := by
  have h := C5_next_id_from_guessed_pk
    [[("recipient_id", PyVal.vint 1), ("group_id", PyVal.vint 7)]]
  refine ⟨h.2.2.2.1 (by decide), ?_⟩
  exact (h.2.2.2.2 "recipient_id" (by decide)).1
    [("recipient_id", PyVal.vint 1), ("group_id", PyVal.vint 7)] (by decide) 1 (by decide)

/-- In-memory table as loaded by `BaseDao._load` / stored in the local
snapshot: a next-id and the raw rows. -/
structure LoadedTable where
  next_id : Int
  rows : List LoadRow
deriving DecidableEq, Repr

/-- `BaseDao._load`: in remote mode, a successful fetch replaces the table
and recomputes next-id; a failed fetch propagates in remote-only mode and
otherwise falls back to the local snapshot (the default empty table with
next-id 1 when no snapshot exists).  In local mode the snapshot is read
directly. -/
def daoLoad (remote remoteOnly : Bool) (fetch : Option (List LoadRow))
    (snapshot : Option LoadedTable) : Except Unit LoadedTable :=
  if remote then
    match fetch with
    | some rows => .ok ⟨loadNextId rows, rows⟩
    | none =>
      if remoteOnly then .error ()
      else .ok (snapshot.getD ⟨1, []⟩)
  else .ok (snapshot.getD ⟨1, []⟩)

/-- `BaseDao.__init__`: a remote-only DAO with no remote configured refuses
to construct; otherwise `_load` runs. -/
def daoInit (remote remoteOnly : Bool) (fetch : Option (List LoadRow))
    (snapshot : Option LoadedTable) : Except Unit LoadedTable :=
  if remoteOnly && !remote then .error ()
  else daoLoad remote remoteOnly fetch snapshot

/-- `RecipientDao.__init__`: `BaseDao.__init__` with `remote_only=True`
(the local snapshot is never consulted on the failure path). -/
def recipientDaoInit (remote : Bool) (fetch : Option (List LoadRow)) :
    Except Unit LoadedTable :=
  daoInit remote true fetch none

/-- C6: with the remote fetch failing, a fallback-permitted repository
constructs successfully from the last local snapshot (or the empty table
with next-id 1 when none exists), while the remote-only Recipients
repository raises at construction. -/
theorem C6_construction_fallback (snap : LoadedTable) (snapOpt : Option LoadedTable) :
    daoInit true false none (some snap) = .ok snap
    ∧ daoInit true false none none = .ok ⟨1, []⟩
    ∧ recipientDaoInit true none = .error ()
    ∧ daoInit true true none snapOpt = .error () := ⟨rfl, rfl, rfl, rfl⟩

/-! ## C7: remote-client credential resolution (`supabase_client.py`) -/

/-- The configuration state seen by `_base_url` and the per-call key lookup:
what each source (saved config file, static settings, environment) provides
for the endpoint and the key.  `none` covers a missing source, a missing
dict key, and a falsy (empty) value alike, since the code tests truthiness. -/
structure CredSources where
  cfgUrl : Option String
  cfgKey : Option String
  settingsUrl : Option String
  settingsKey : Option String
  envUrl : Option String
  envKey : Option String
deriving DecidableEq, Repr

/-- `_base_url`: saved config's URL if truthy, else the settings URL, else
the `SUPABASE_URL` environment variable (default `""`), right-stripped of
`/`. -/
def resolvedUrl (s : CredSources) : String :=
  rstripSlash ((match s.cfgUrl with
    | some u => some u
    | none =>
      match s.settingsUrl with
      | some u => some u
      | none => s.envUrl).getD "")

/-- The key lookup performed by `get_all` / `upsert_rows` / `delete_row` /
`delete_by_filters` / `delete_all`: saved config's key if truthy, else the
settings key, else the `SUPABASE_KEY` environment variable (default `""`). -/
def resolvedKey (s : CredSources) : String :=
  (match s.cfgKey with
    | some k => some k
    | none =>
      match s.settingsKey with
      | some k => some k
      | none => s.envKey).getD ""

/-- Stated from the spec's words, for comparison (C7): the endpoint and key
as a pair from the first source that provides both. -/
def specResolvedPair (s : CredSources) : Option (String × String) :=
  match s.cfgUrl, s.cfgKey with
  | some u, some k => some (u, k)
  | _, _ =>
    match s.settingsUrl, s.settingsKey with
    | some u, some k => some (u, k)
    | _, _ =>
      match s.envUrl, s.envKey with
      | some u, some k => some (u, k)
      | _, _ => none

/-- C7 counterexample: settings provide only a URL while the environment
provides both.  The claim predicts the pair comes whole from the environment
(the first source providing both); the code takes the URL from settings and
the key from the environment — two different sources. -/
theorem C7_counterexample_mixed_sources :
    specResolvedPair ⟨none, none, some "u-settings", none, some "u-env", some "k-env"⟩
      = some ("u-env", "k-env")
    ∧ resolvedUrl ⟨none, none, some "u-settings", none, some "u-env", some "k-env"⟩
      = "u-settings"
    ∧ resolvedKey ⟨none, none, some "u-settings", none, some "u-env", some "k-env"⟩
      = "k-env"
    ∧ resolvedUrl ⟨none, none, some "u-settings", none, some "u-env", some "k-env"⟩
      ≠ "u-env" := by
  refine ⟨rfl, by decide, rfl, by decide⟩

/-- C7 (amended): the endpoint and the key are resolved *independently*,
each with precedence saved config → static settings → environment, so they
can come from different sources.  When every source provides either both or
neither of (endpoint, key), the resolved values do agree with the claimed
pair-wise resolution: they equal the pair of the first source providing
both (the URL additionally right-stripped of `/`). -/
theorem C7_independent_resolution (s : CredSources)
    (h1 : s.cfgUrl.isSome = s.cfgKey.isSome)
    (h2 : s.settingsUrl.isSome = s.settingsKey.isSome)
    (h3 : s.envUrl.isSome = s.envKey.isSome) :
    ∀ u k, specResolvedPair s = some (u, k) →
      resolvedUrl s = rstripSlash u ∧ resolvedKey s = k := by
  intro u k h
  cases s with
  | mk cu ck su sk eu ek =>
    cases cu <;> cases ck <;> cases su <;> cases sk <;> cases eu <;> cases ek <;>
      simp_all [specResolvedPair, resolvedUrl, resolvedKey]

/-- Witness for C7 (amended): only the environment configured, with a
trailing slash on the URL. -/
theorem C7_independent_resolution_witness :
    resolvedUrl ⟨none, none, none, none, some "http://h/", some "k"⟩
      = rstripSlash "http://h/"
    ∧ resolvedKey ⟨none, none, none, none, some "http://h/", some "k"⟩ = "k" :=
  C7_independent_resolution ⟨none, none, none, none, some "http://h/", some "k"⟩
    rfl rfl rfl "http://h/" "k" rfl

/-! ## C8: behaviour of update/delete on a missing id -/

/-- `RecipientGroupDao.update`: patch the first row with the given id
(`name` / `recipients` only when supplied), or fail with `ValueError`
("Group not found"). -/
def groupUpdateRows (rows : List GroupRow) (group_id : Nat) (name : Option String)
    (recipients : Option (List Nat)) : Option (List GroupRow) :=
  match rows with
  | [] => none
  | r :: rest =>
    if r.group_id = group_id then
      some ({ r with
        name := name.getD r.name,
        recipients := recipients.getD r.recipients } :: rest)
    else (groupUpdateRows rest group_id name recipients).map (r :: ·)

/-- `RecipientGroupDao.update` at the table level. -/
def GroupTable.update (t : GroupTable) (group_id : Nat) (name : Option String)
    (recipients : Option (List Nat)) : Except Unit GroupTable :=
  match groupUpdateRows t.groups group_id name recipients with
  | some rows' => .ok { t with groups := rows' }
  | none => .error ()

lemma recipientUpdateRows_none (rid : Nat) (a : Option String) (go : Option Nat) :
    ∀ (rows : List RecipientRow), (∀ r ∈ rows, r.recipient_id ≠ rid) →
      recipientUpdateRows rows rid a go = none := by
  intro rows
  induction rows with
  | nil => intro _; rfl
  | cons r rest ih =>
    intro h
    unfold recipientUpdateRows
    rw [if_neg (h r (List.mem_cons_self _ _))]
    rw [ih (fun x hx => h x (List.mem_cons_of_mem _ hx))]
    rfl

lemma senderEditRows_none (s : SenderRow) :
    ∀ (rows : List SenderRow), (∀ x ∈ rows, x.sender_id ≠ s.sender_id) →
      senderEditRows rows s = none := by
  intro rows
  induction rows with
  | nil => intro _; rfl
  | cons r rest ih =>
    intro h
    unfold senderEditRows
    rw [if_neg (h r (List.mem_cons_self _ _))]
    rw [ih (fun x hx => h x (List.mem_cons_of_mem _ hx))]
    rfl

lemma groupUpdateRows_missing (gid : Nat) (gn : Option String) (grs : Option (List Nat)) :
    ∀ (rows : List GroupRow), (∀ x ∈ rows, x.group_id ≠ gid) →
      groupUpdateRows rows gid gn grs = none := by
  intro rows
  induction rows with
  | nil => intro _; rfl
  | cons r rest ih =>
    intro h
    unfold groupUpdateRows
    rw [if_neg (h r (List.mem_cons_self _ _))]
    rw [ih (fun x hx => h x (List.mem_cons_of_mem _ hx))]
    rfl

/-- C8 counterexample: a `delete` that references a missing id does *not*
raise a domain error — it returns a normal `False` and leaves the table
untouched (shown here on empty Recipient, Sender and Group tables at id 1). -/
theorem C8_counterexample_delete_returns_false :
    (RecipientTable.mk 1 []).delete 1 = (RecipientTable.mk 1 [], false)
    ∧ (SenderTable.mk 1 []).delete 1 = (SenderTable.mk 1 [], false)
    ∧ (GroupTable.mk 1 []).delete 1 = (GroupTable.mk 1 [], false) :=
  ⟨rfl, rfl, rfl⟩

/-- C8 (amended): on a missing id, `update` (Recipient, Group) and `edit`
(Sender) raise a not-found domain error, while the `delete` methods of all
three primary-entity repositories return `False` without raising and leave
the table unchanged. -/
theorem C8_missing_id_behaviour (tr : RecipientTable) (ts : SenderTable)
    (tg : GroupTable) (rid sid gid : Nat) (a : Option String) (go : Option Nat)
    (s : SenderRow) (gn : Option String) (grs : Option (List Nat))
    (hr : ∀ r ∈ tr.recipients, r.recipient_id ≠ rid)
    (hsd : ∀ x ∈ ts.senders, x.sender_id ≠ sid)
    (hse : ∀ x ∈ ts.senders, x.sender_id ≠ s.sender_id)
    (hg : ∀ x ∈ tg.groups, x.group_id ≠ gid) :
    tr.update rid a go = .error ()
    ∧ tr.delete rid = (tr, false)
    ∧ ts.edit s = .error ()
    ∧ ts.delete sid = (ts, false)
    ∧ tg.update gid gn grs = .error ()
    ∧ tg.delete gid = (tg, false) := by
  refine ⟨?_, ?_, ?_, ?_, ?_, ?_⟩
  · unfold RecipientTable.update
    rw [recipientUpdateRows_none rid a go tr.recipients hr]
  · unfold RecipientTable.delete
    have hfil : tr.recipients.filter (fun r => !(r.recipient_id == rid))
        = tr.recipients :=
      List.filter_eq_self.mpr (fun r hrr => by simp [hr r hrr])
    rw [hfil]
    simp
  · unfold SenderTable.edit
    rw [senderEditRows_none s ts.senders hse]
  · unfold SenderTable.delete
    have hfil : ts.senders.filter (fun x => !(x.sender_id == sid)) = ts.senders :=
      List.filter_eq_self.mpr (fun x hx => by simp [hsd x hx])
    rw [hfil]
    simp
  · unfold GroupTable.update
    rw [groupUpdateRows_missing gid gn grs tg.groups hg]
  · unfold GroupTable.delete
    have hfil : tg.groups.filter (fun x => !(x.group_id == gid)) = tg.groups :=
      List.filter_eq_self.mpr (fun x hx => by simp [hg x hx])
    rw [hfil]
    simp

/-- Witness for C8 (amended) on concrete one-row tables and absent ids. -/
theorem C8_missing_id_behaviour_witness :
    (RecipientTable.mk 2 [⟨1, "a", none⟩]).update 9 none none = .error ()
    ∧ (RecipientTable.mk 2 [⟨1, "a", none⟩]).delete 9
        = (RecipientTable.mk 2 [⟨1, "a", none⟩], false)
    ∧ (SenderTable.mk 2 [⟨1, none, "s"⟩]).edit ⟨9, none, "z"⟩ = .error ()
    ∧ (SenderTable.mk 2 [⟨1, none, "s"⟩]).delete 9
        = (SenderTable.mk 2 [⟨1, none, "s"⟩], false)
    ∧ (GroupTable.mk 2 [⟨1, "A", []⟩]).update 9 none none = .error ()
    ∧ (GroupTable.mk 2 [⟨1, "A", []⟩]).delete 9
        = (GroupTable.mk 2 [⟨1, "A", []⟩], false) :=
  C8_missing_id_behaviour (RecipientTable.mk 2 [⟨1, "a", none⟩])
    (SenderTable.mk 2 [⟨1, none, "s"⟩]) (GroupTable.mk 2 [⟨1, "A", []⟩])
    9 9 9 none none ⟨9, none, "z"⟩ none none
    (by decide) (by decide) (by decide) (by decide)

/-! ## C9: recipient add under a remote 409 conflict -/

/-- C9: when the single-row upsert of a new recipient fails with HTTP 409
and the subsequent reload returns `rows` containing a record with the same
address, `add` returns that reloaded record (not the locally constructed
one) and the cache is the reloaded table. -/
theorem C9_conflict_reload_reresolve (t : RecipientTable) (rec ex : RecipientRow)
    (rows : List RecipientRow)
    (hnew : t.find_by_address rec.address = none)
    (hex : (RecipientTable.load rows).find_by_address rec.address = some ex) :
    t.add rec (.conflict rows) = (RecipientTable.load rows, ex) := by
  unfold RecipientTable.add
  rw [hnew]
  dsimp only
  rw [hex]

/-- Witness for C9: empty local cache, new address "a"; the reload returns a
concurrent writer's row for address "A" with server id 5. -/
theorem C9_conflict_reload_reresolve_witness :
    (RecipientTable.mk 1 []).add ⟨0, "a", none⟩ (.conflict [⟨5, "A", none⟩])
      = (RecipientTable.load [⟨5, "A", none⟩], ⟨5, "A", none⟩) :=
  C9_conflict_reload_reresolve (RecipientTable.mk 1 []) ⟨0, "a", none⟩
    ⟨5, "A", none⟩ [⟨5, "A", none⟩] (by decide) (by decide)

/-! ## C10: legacy group member-id list association -/

/-- `RecipientGroupDao.add_recipient_to_group`: look the group up by id
(raising "Group not found" when absent); if the recipient id is already in
the legacy list return `False`; otherwise append it once and persist the
group row via `update`. -/
def GroupTable.add_recipient_to_group (t : GroupTable) (group_id recipient_id : Nat) :
    Except Unit (GroupTable × Bool) :=
  match t.find_by_id group_id with
  | none => .error ()
  | some g =>
    if recipient_id ∈ g.recipients then .ok (t, false)
    else
      match t.update group_id none (some (g.recipients ++ [recipient_id])) with
      | .ok t' => .ok (t', true)
      | .error e => .error e

/-- `RecipientGroupDao.remove_recipient_from_group`: look the group up by id
(raising when absent); drop every occurrence of the recipient id from the
legacy list, persisting and returning `True` when the list shrank, else
returning `False` with the table unchanged. -/
def GroupTable.remove_recipient_from_group (t : GroupTable) (group_id recipient_id : Nat) :
    Except Unit (GroupTable × Bool) :=
  match t.find_by_id group_id with
  | none => .error ()
  | some g =>
    if (g.recipients.filter (fun x => !(x == recipient_id))).length
        < g.recipients.length then
      match t.update group_id none
          (some (g.recipients.filter (fun x => !(x == recipient_id)))) with
      | .ok t' => .ok (t', true)
      | .error e => .error e
    else .ok (t, false)

lemma groupUpdateRows_of_found (gid : Nat) (name : Option String)
    (recips : Option (List Nat)) :
    ∀ (rows : List GroupRow) (g : GroupRow),
      rows.find? (fun x => x.group_id == gid) = some g →
      ∃ rows', groupUpdateRows rows gid name recips = some rows'
        ∧ rows'.find? (fun x => x.group_id == gid) =
            some { g with
              name := name.getD g.name,
              recipients := recips.getD g.recipients } := by
  intro rows
  induction rows with
  | nil => intro g h; cases h
  | cons r rest ih =>
    intro g h
    cases hb : (r.group_id == gid) with
    | true =>
      have hg : g = r := by
        rw [List.find?_cons_of_pos (p := fun x => x.group_id == gid) rest hb] at h
        exact (Option.some.inj h).symm
      have hgidr : r.group_id = gid := eq_of_beq hb
      refine ⟨{ r with
        name := name.getD r.name,
        recipients := recips.getD r.recipients } :: rest, ?_, ?_⟩
      · unfold groupUpdateRows
        rw [if_pos hgidr]
      · rw [hg]
        refine List.find?_cons_of_pos (p := fun x => x.group_id == gid) rest ?_
        exact hb
    | false =>
      have hfind : rest.find? (fun x => x.group_id == gid) = some g := by
        rw [List.find?_cons_of_neg (p := fun x => x.group_id == gid) rest
          (by simp [hb])] at h
        exact h
      obtain ⟨rows', h1, h2⟩ := ih g hfind
      refine ⟨r :: rows', ?_, ?_⟩
      · unfold groupUpdateRows
        rw [if_neg (by intro hc; rw [hc] at hb; simp at hb), h1]
        rfl
      · rw [List.find?_cons_of_neg (p := fun x => x.group_id == gid) rows'
          (by simp [hb])]
        exact h2

lemma mem_iff_filter_length_lt (rid : Nat) (l : List Nat) :
    ((l.filter (fun x => !(x == rid))).length < l.length) ↔ rid ∈ l := by
  have h := filter_shrank (fun x => x == rid) l
  constructor
  · intro hlt
    have hany : l.any (fun x => x == rid) = true := by
      rw [← h]
      exact decide_eq_true hlt
    obtain ⟨x, hx, hbx⟩ := List.any_eq_true.mp hany
    exact eq_of_beq hbx ▸ hx
  · intro hmem
    have hany : l.any (fun x => x == rid) = true :=
      List.any_eq_true.mpr ⟨rid, hmem, beq_self_eq_true _⟩
    have hd : decide ((l.filter (fun x => !(x == rid))).length < l.length) = true := by
      rw [h]
      exact hany
    exact of_decide_eq_true hd

/-- C10: the legacy association path keeps a group's member-id list
duplicate-free and behaves as follows: a missing group id raises a
not-found error from both operations; adding an already-present recipient
returns `False` without change; adding an absent recipient appends it
exactly once (preserving duplicate-freeness) and returns `True`; removing a
present recipient removes every occurrence and returns `True`; removing an
absent recipient returns `False` without change. -/
theorem C10_legacy_member_list (t : GroupTable) (gid rid : Nat) :
    (t.find_by_id gid = none →
      t.add_recipient_to_group gid rid = .error ()
      ∧ t.remove_recipient_from_group gid rid = .error ())
    ∧ (∀ g, t.find_by_id gid = some g →
        (rid ∈ g.recipients → t.add_recipient_to_group gid rid = .ok (t, false))
        ∧ (rid ∉ g.recipients →
            ∃ t', t.add_recipient_to_group gid rid = .ok (t', true)
              ∧ t'.find_by_id gid = some { g with recipients := g.recipients ++ [rid] }
              ∧ (g.recipients.Nodup → (g.recipients ++ [rid]).Nodup))
        ∧ (rid ∈ g.recipients →
            ∃ t', t.remove_recipient_from_group gid rid = .ok (t', true)
              ∧ t'.find_by_id gid =
                  some { g with recipients :=
                    g.recipients.filter (fun x => !(x == rid)) }
              ∧ (∀ x ∈ g.recipients.filter (fun x => !(x == rid)), x ≠ rid))
        ∧ (rid ∉ g.recipients →
            t.remove_recipient_from_group gid rid = .ok (t, false))) := by
  constructor
  · intro hnone
    constructor
    · unfold GroupTable.add_recipient_to_group
      rw [hnone]
    · unfold GroupTable.remove_recipient_from_group
      rw [hnone]
  · intro g hfind
    refine ⟨?_, ?_, ?_, ?_⟩
    · intro hmem
      unfold GroupTable.add_recipient_to_group
      rw [hfind]
      dsimp only
      rw [if_pos hmem]
    · intro hnomem
      obtain ⟨rows', h1, h2⟩ :=
        groupUpdateRows_of_found gid none (some (g.recipients ++ [rid]))
          t.groups g hfind
      refine ⟨{ t with groups := rows' }, ?_, ?_, ?_⟩
      · unfold GroupTable.add_recipient_to_group
        rw [hfind]
        dsimp only
        rw [if_neg hnomem]
        unfold GroupTable.update
        rw [h1]
      · exact h2
      · intro hnd
        rw [List.nodup_append]
        exact ⟨hnd, List.nodup_singleton _, by simpa using fun h => hnomem h⟩
    · intro hmem
      have hlt : (g.recipients.filter (fun x => !(x == rid))).length
          < g.recipients.length := (mem_iff_filter_length_lt rid g.recipients).mpr hmem
      obtain ⟨rows', h1, h2⟩ :=
        groupUpdateRows_of_found gid none
          (some (g.recipients.filter (fun x => !(x == rid)))) t.groups g hfind
      refine ⟨{ t with groups := rows' }, ?_, ?_, ?_⟩
      · unfold GroupTable.remove_recipient_from_group
        rw [hfind]
        dsimp only
        rw [if_pos hlt]
        unfold GroupTable.update
        rw [h1]
      · exact h2
      · intro x hx
        have := (List.mem_filter.mp hx).2
        intro hc
        rw [hc] at this
        simp at this
    · intro hnomem
      have hnlt : ¬((g.recipients.filter (fun x => !(x == rid))).length
          < g.recipients.length) := by
        intro hc
        exact hnomem ((mem_iff_filter_length_lt rid g.recipients).mp hc)
      unfold GroupTable.remove_recipient_from_group
      rw [hfind]
      dsimp only
      rw [if_neg hnlt]

/-- Witness for C10 on a one-group table (group 1 with legacy list [2]):
missing group 9 raises from both paths; re-adding member 2 returns `False`;
removing absent member 3 returns `False`. -/
theorem C10_legacy_member_list_witness :
    (GroupTable.mk 2 [⟨1, "A", [2]⟩]).add_recipient_to_group 9 5 = .error ()
    ∧ (GroupTable.mk 2 [⟨1, "A", [2]⟩]).remove_recipient_from_group 9 5 = .error ()
    ∧ (GroupTable.mk 2 [⟨1, "A", [2]⟩]).add_recipient_to_group 1 2
        = .ok (GroupTable.mk 2 [⟨1, "A", [2]⟩], false)
    ∧ (GroupTable.mk 2 [⟨1, "A", [2]⟩]).remove_recipient_from_group 1 3
        = .ok (GroupTable.mk 2 [⟨1, "A", [2]⟩], false) := by
  have h9 := C10_legacy_member_list (GroupTable.mk 2 [⟨1, "A", [2]⟩]) 9 5
  have h2 := C10_legacy_member_list (GroupTable.mk 2 [⟨1, "A", [2]⟩]) 1 2
  have h3 := C10_legacy_member_list (GroupTable.mk 2 [⟨1, "A", [2]⟩]) 1 3
  exact ⟨(h9.1 (by decide)).1, (h9.1 (by decide)).2,
    (h2.2 ⟨1, "A", [2]⟩ (by decide)).1 (by decide),
    (h3.2 ⟨1, "A", [2]⟩ (by decide)).2.2.2 (by decide)⟩

end Enviador
